import Mathlib

/-!
# Verification of the RFM customer-segmentation pipeline

Shallow embedding of `src/rfm_analysis_app.py` (pandas/streamlit app).

Modelling conventions:
* A transaction row carries `CustomerID`, `OrderID`, `TransactionAmount`
  and `PurchaseDate`; dates are embedded as integer day numbers, so
  `(now - PurchaseDate).dt.days` becomes integer subtraction.
* Currency amounts and all quantile arithmetic are `ℚ` (pandas uses
  floats; every quantity in the pipeline is exactly representable).
* `pd.qcut(xs, q, labels)` computes the `q+1` empirical quantiles of
  `xs` with linear interpolation and raises `ValueError` when the bin
  edges are not pairwise distinct (`duplicates='raise'` is the pandas
  default).  A value `v` falls in bin `k` when `e_k < v ≤ e_{k+1}`,
  with the minimum adjusted into bin 0; for in-range values this is
  exactly "the number of interior edges strictly below `v`".
* The string segment labels of the source become inductive labels
  (`Segment`, `ValueSeg`); the initial empty string label `''` is
  `Segment.unassigned`.
* The four fallible `pd.qcut` calls are embedded as `Option`-returning
  `qcut?`; the pipeline is `Except QcutError`, the error constructor
  recording which of the four `qcut` call sites raised first (in the
  source the uncaught `ValueError` aborts the run at that site).
-/

/-- A transaction record of the input table: one row per purchase event. -/
structure Row where
  customerID : Nat
  orderID : Nat
  amount : ℚ
  purchaseDate : Int
deriving DecidableEq, Repr

/-- Fixed-threshold customer segments; `unassigned` is the initial `''` label. -/
inductive Segment where
  | champions
  | potentialLoyalists
  | atRiskCustomers
  | cantLose
  | lost
  | unassigned
deriving DecidableEq, Repr

/-- The 3-tier value segment labels `['Low-Value', 'Mid-Value', 'High-Value']`. -/
inductive ValueSeg where
  | low
  | mid
  | high
deriving DecidableEq, Repr

/-- A row of the scored output table: the original transaction columns
extended with the derived measures, scores and segment labels. -/
structure ScoredRow where
  customerID : Nat
  orderID : Nat
  amount : ℚ
  purchaseDate : Int
  recency : Int
  frequency : Nat
  monetaryValue : ℚ
  recencyScore : ℤ
  frequencyScore : ℤ
  monetaryScore : ℤ
  rfmScore : ℤ
  valueSegment : ValueSeg
  customerSegment : Segment
deriving DecidableEq, Repr

/-- Which `pd.qcut` call raised the `ValueError` (duplicate bin edges):
the three `q=5` cuts on the raw measures, or the `q=3` cut on `RFM_Score`. -/
inductive QcutError where
  | recencyCut
  | frequencyCut
  | monetaryCut
  | valueSegmentCut
deriving DecidableEq, Repr

/-- Insert into a sorted list (ascending). -/
def insertSorted (x : ℚ) : List ℚ → List ℚ
  | [] => [x]
  | y :: ys => if x ≤ y then x :: y :: ys else y :: insertSorted x ys

/-- Sort a list of rationals ascending (insertion sort). -/
def sortQ (l : List ℚ) : List ℚ := l.foldr insertSorted []

/-- Empirical quantile with linear interpolation (numpy/pandas default):
for sorted data `ys` of length `n`, the quantile at `p` sits at fractional
position `h = p * (n-1)`. -/
def quantile (ys : List ℚ) (p : ℚ) : ℚ :=
  let h : ℚ := p * ((ys.length : ℚ) - 1)
  let i : Nat := h.floor.toNat
  let lo := ys.getD i 0
  let hi := ys.getD (i + 1) lo
  lo + (h - (i : ℚ)) * (hi - lo)

/-- The `q+1` quantile bin edges `pd.qcut` computes for `values`: the
empirical quantiles at probabilities `k / q`, `k = 0, …, q`. -/
def quantileEdges (values : List ℚ) (q : Nat) : List ℚ :=
  (List.range (q + 1)).map (fun k => quantile (sortQ values) (mkRat (Int.ofNat k) q))

/-- `pd.qcut(values, q)` bin-edge computation: raises (returns `none`)
when the edges are not pairwise distinct (`duplicates='raise'`). -/
def qcut? (values : List ℚ) (q : Nat) : Option (List ℚ) :=
  let e := quantileEdges values q
  if e.Nodup then some e else none

/-- The bin a value falls into, given the edge list: the number of
interior edges strictly below the value (intervals `(e_k, e_{k+1}]`,
minimum included in bin 0). -/
def binIndex (edges : List ℚ) (v : ℚ) : Nat :=
  ((edges.drop 1).dropLast).countP (fun e => decide (e < v))

/-- `recency_scores = [5, 4, 3, 2, 1]` (descending with the bin order). -/
def recencyScores : List ℤ := [5, 4, 3, 2, 1]

/-- `frequency_scores = [1, 2, 3, 4, 5]` (ascending with the bin order). -/
def frequencyScores : List ℤ := [1, 2, 3, 4, 5]

/-- `monetary_scores = [1, 2, 3, 4, 5]` (ascending with the bin order). -/
def monetaryScores : List ℤ := [1, 2, 3, 4, 5]

/-- Ordinal score of a value: the bin's entry of the label list. -/
def scoreOf (labels : List ℤ) (edges : List ℚ) (v : ℚ) : ℤ :=
  labels.getD (binIndex edges v) 0

/-- `data['Recency'] = (now - data['PurchaseDate']).dt.days`: per-row days
between the reference instant and that row's own purchase date. -/
def recencyOf (now : Int) (r : Row) : Int := now - r.purchaseDate

/-- `data.groupby('CustomerID')['OrderID'].count()`: the number of
(non-null) `OrderID` entries among the customer's rows. -/
def frequency (data : List Row) (c : Nat) : Nat :=
  (data.filter (fun r => decide (r.customerID = c))).length

/-- `data.groupby('CustomerID')['TransactionAmount'].sum()`. -/
def monetary (data : List Row) (c : Nat) : ℚ :=
  ((data.filter (fun r => decide (r.customerID = c))).map Row.amount).sum

/-- The per-row `Recency` column, as fed to `pd.qcut`. -/
def recencyValues (data : List Row) (now : Int) : List ℚ :=
  data.map (fun r => ((recencyOf now r : Int) : ℚ))

/-- The per-row `Frequency` column after the merge broadcast each row
carries its customer's aggregate. -/
def frequencyValues (data : List Row) : List ℚ :=
  data.map (fun r => ((frequency data r.customerID : Nat) : ℚ))

/-- The per-row `MonetaryValue` column after the merge broadcast. -/
def monetaryValues (data : List Row) : List ℚ :=
  data.map (fun r => monetary data r.customerID)

/-- `RFM_Score` of one row: sum of the three ordinal scores. -/
def rfmScoreOf (data : List Row) (now : Int) (re fe me : List ℚ) (r : Row) : ℤ :=
  scoreOf recencyScores re ((recencyOf now r : Int) : ℚ) +
  scoreOf frequencyScores fe ((frequency data r.customerID : Nat) : ℚ) +
  scoreOf monetaryScores me (monetary data r.customerID)

/-- The `RFM_Score` column, as fed to the `q=3` cut for `Value Segment`. -/
def rfmValues (data : List Row) (now : Int) (re fe me : List ℚ) : List ℚ :=
  data.map (fun r => ((rfmScoreOf data now re fe me r : ℤ) : ℚ))

/-- `segment_labels = ['Low-Value', 'Mid-Value', 'High-Value']` indexed by bin. -/
def valueSegOf (ve : List ℚ) (s : ℤ) : ValueSeg :=
  [ValueSeg.low, ValueSeg.mid, ValueSeg.high].getD (binIndex ve (s : ℚ)) ValueSeg.low

/-- The sequence of `data.loc[cond, 'RFM Customer Segments'] = label`
assignments, starting from the empty label; a later matching condition
overwrites an earlier one. -/
def rfmSegment (s : ℤ) : Segment :=
  let t0 := Segment.unassigned
  let t1 := if 9 ≤ s then Segment.champions else t0
  let t2 := if 6 ≤ s ∧ s < 9 then Segment.potentialLoyalists else t1
  let t3 := if 5 ≤ s ∧ s < 6 then Segment.atRiskCustomers else t2
  let t4 := if 4 ≤ s ∧ s < 5 then Segment.cantLose else t3
  if s < 4 then Segment.lost else t4

/-- Assemble one output row from a transaction row and the four edge lists. -/
def mkScored (data : List Row) (now : Int) (re fe me ve : List ℚ) (r : Row) : ScoredRow :=
  { customerID := r.customerID
    orderID := r.orderID
    amount := r.amount
    purchaseDate := r.purchaseDate
    recency := recencyOf now r
    frequency := frequency data r.customerID
    monetaryValue := monetary data r.customerID
    recencyScore := scoreOf recencyScores re ((recencyOf now r : Int) : ℚ)
    frequencyScore := scoreOf frequencyScores fe ((frequency data r.customerID : Nat) : ℚ)
    monetaryScore := scoreOf monetaryScores me (monetary data r.customerID)
    rfmScore := rfmScoreOf data now re fe me r
    valueSegment := valueSegOf ve (rfmScoreOf data now re fe me r)
    customerSegment := rfmSegment (rfmScoreOf data now re fe me r) }

/-- The scoring/segmentation pipeline (lines 19-62 of the source), with
the reference instant `datetime.now()` made an explicit parameter `now`.
The four `pd.qcut` calls run in source order; the first one whose bin
edges are not distinct aborts the run. -/
def pipeline (data : List Row) (now : Int) : Except QcutError (List ScoredRow) :=
  match qcut? (recencyValues data now) 5 with
  | none => .error .recencyCut
  | some re =>
    match qcut? (frequencyValues data) 5 with
    | none => .error .frequencyCut
    | some fe =>
      match qcut? (monetaryValues data) 5 with
      | none => .error .monetaryCut
      | some me =>
        match qcut? (rfmValues data now re fe me) 3 with
        | none => .error .valueSegmentCut
        | some ve => .ok (data.map (mkScored data now re fe me ve))

/-! ## Aggregation reporter (lines 88-108): Champions sub-population -/

/-- `champions_segment = data[data['RFM Customer Segments'] == 'Champions']`. -/
def championsRows (out : List ScoredRow) : List ScoredRow :=
  out.filter (fun r => decide (r.customerSegment = Segment.champions))

/-- Arithmetic mean; `0` on the empty list (the value is irrelevant there:
every correlation entry over an empty column is flagged `NaN` below). -/
def meanQ (xs : List ℚ) : ℚ := xs.sum / (xs.length : ℚ)

/-- Centered sum of squares `Σ (x - x̄)²` of a column. -/
def centeredSS (xs : List ℚ) : ℚ :=
  (xs.map (fun x => (x - meanQ xs) ^ 2)).sum

/-- Whether the Pearson correlation entry of two equal-length columns is
`NaN`: pandas computes `cov / (σx · σy)`, which is `NaN` exactly when a
standard deviation vanishes (in particular on zero or one observation). -/
def corrIsNaN (xs ys : List ℚ) : Bool :=
  decide (centeredSS xs = 0) || decide (centeredSS ys = 0)

/-- The three score columns of a table, as fed to `.corr()`. -/
def scoreColumns (rows : List ScoredRow) : List (List ℚ) :=
  [rows.map (fun r => ((r.recencyScore : ℤ) : ℚ)),
   rows.map (fun r => ((r.frequencyScore : ℤ) : ℚ)),
   rows.map (fun r => ((r.monetaryScore : ℤ) : ℚ))]

/-- `champions_segment[['RecencyScore','FrequencyScore','MonetaryScore']].corr()`
produces a 3×3 matrix; this checks that every entry is `NaN`.  The
computation is total: no error is ever raised by this stage. -/
def championsCorrAllNaN (out : List ScoredRow) : Bool :=
  (scoreColumns (championsRows out)).all (fun xs =>
    (scoreColumns (championsRows out)).all (fun ys => corrIsNaN xs ys))

/-! ## Concrete datasets used by witnesses and counterexamples -/

/-- Build the rows of one customer: consecutive order ids, given amounts
and purchase dates. -/
def mkRows (cid : Nat) (oidBase : Nat) (specs : List (ℚ × Int)) : List Row :=
  (specs.enum).map (fun p => ⟨cid, oidBase + p.1, p.2.1, p.2.2⟩)

/-- Example dataset on which every cut succeeds (reference instant 100):
customer sizes 1,2,2,2,2,3,3,3,5; see the hand computation in comments. -/
def exData : List Row :=
  mkRows 1 10 [(50, 90)] ++
  mkRows 2 20 [(30, 89), (30, 88)] ++
  mkRows 3 30 [(30, 87), (30, 86)] ++
  mkRows 4 40 [(30, 85), (30, 84)] ++
  mkRows 5 50 [(30, 83), (30, 82)] ++
  mkRows 6 60 [(20, 80), (20, 79), (30, 78)] ++
  mkRows 7 70 [(20, 77), (20, 76), (30, 75)] ++
  mkRows 8 80 [(20, 74), (20, 73), (30, 72)] ++
  mkRows 9 90 [(18, 70), (18, 69), (18, 68), (18, 67), (18, 66)]

/-- Dataset for which the three `q=5` measure cuts succeed but the `q=3`
cut on `RFM_Score` raises: the `RFM_Score` column is `[5×9, 11×14]`, so
its `p = 0` and `p = 1/3` quantile edges coincide. -/
def dataC10 : List Row :=
  mkRows 1 10 [(50, 80)] ++
  mkRows 2 20 [(30, 80), (30, 80)] ++
  mkRows 3 30 [(30, 80), (30, 80)] ++
  mkRows 4 40 [(30, 80), (30, 80)] ++
  mkRows 5 50 [(30, 80), (30, 80)] ++
  mkRows 6 60 [(20, 90), (20, 89), (30, 89)] ++
  mkRows 7 70 [(20, 89), (20, 89), (30, 89)] ++
  mkRows 8 80 [(20, 89), (20, 89), (30, 89)] ++
  mkRows 9 90 [(18, 70), (18, 69), (18, 68), (18, 67), (18, 66)]

/-- Dataset on which recency and frequency cuts succeed but every
customer's `MonetaryValue` is `60`: the monetary edges all coincide. -/
def dataC5 : List Row :=
  mkRows 1 10 [(60, 90)] ++
  mkRows 2 20 [(30, 89), (30, 88)] ++
  mkRows 3 30 [(30, 87), (30, 86)] ++
  mkRows 4 40 [(30, 85), (30, 84)] ++
  mkRows 5 50 [(30, 83), (30, 82)] ++
  mkRows 6 60 [(20, 80), (20, 79), (20, 78)] ++
  mkRows 7 70 [(20, 77), (20, 76), (20, 75)] ++
  mkRows 8 80 [(20, 74), (20, 73), (20, 72)] ++
  mkRows 9 90 [(12, 70), (12, 69), (12, 68), (12, 67), (12, 66)]

/-- Dummy transaction row (default for `List.getD`). -/
def row0 : Row := ⟨0, 0, 0, 0⟩

/-- Dummy scored row (default for `List.getD`). -/
def srow0 : ScoredRow :=
  ⟨0, 0, 0, 0, 0, 0, 0, 0, 0, 0, 0, ValueSeg.low, Segment.unassigned⟩

/-- The scored table the pipeline produces on `exData` at reference instant 100. -/
def exOut : List ScoredRow := (pipeline exData 100).toOption.getD []

/-- Rank of a value-segment label in the ascending label order
`Low-Value < Mid-Value < High-Value`. -/
def vrank : ValueSeg → Nat
  | ValueSeg.low => 0
  | ValueSeg.mid => 1
  | ValueSeg.high => 2

/-- Modelled from the spec: `Frequency` as "count of distinct orders
placed by a customer" — the number of distinct `OrderID` values among
the customer's rows.  This follows the spec's words; the source instead
counts all (non-null) `OrderID` entries. -/
def specDistinctOrderCount (data : List Row) (c : Nat) : Nat :=
  (((data.filter (fun r => decide (r.customerID = c))).map Row.orderID).dedup).length

/-- Two rows of one customer carrying the same `OrderID` (a duplicate). -/
def data7 : List Row := [⟨1, 5, 10, 90⟩, ⟨1, 5, 12, 91⟩]

/-- A scored table with no row in the Champions segment, as input to the
aggregation reporter. -/
def t6 : List ScoredRow :=
  [⟨1, 1, 10, 90, 10, 1, 10, 1, 1, 1, 3, ValueSeg.low, Segment.lost⟩,
   ⟨2, 2, 20, 80, 20, 1, 20, 2, 1, 1, 4, ValueSeg.low, Segment.cantLose⟩]

/-! ## General lemmas about the embedded operations -/

/-- Counting a weaker predicate counts at most as much. -/
theorem countP_imp_le {α : Type} {p q : α → Bool} (l : List α)
    (h : ∀ a, p a = true → q a = true) : l.countP p ≤ l.countP q := by
  induction l with
  | nil => simp
  | cons x xs ih =>
    rw [List.countP_cons, List.countP_cons]
    have hx : (if p x then (1 : Nat) else 0) ≤ (if q x then 1 else 0) := by
      by_cases hp : p x = true
      · simp [hp, h x hp]
      · have hp0 : p x = false := by revert hp; cases p x <;> simp
        simp [hp0]
    omega

/-- A count is bounded by the list length. -/
theorem countP_le_len {α : Type} (p : α → Bool) (l : List α) :
    l.countP p ≤ l.length := by
  induction l with
  | nil => simp
  | cons x xs ih =>
    rw [List.countP_cons, List.length_cons]
    split <;> omega

/-- Bin assignment is monotone in the value, whatever the edges are. -/
theorem binIndex_mono {edges : List ℚ} {v w : ℚ} (h : v ≤ w) :
    binIndex edges v ≤ binIndex edges w := by
  apply countP_imp_le
  intro a ha
  simp only [decide_eq_true_eq] at ha ⊢
  exact lt_of_lt_of_le ha h

/-- `pd.qcut` with `q` bins computes `q + 1` edges. -/
theorem quantileEdges_length (values : List ℚ) (q : Nat) :
    (quantileEdges values q).length = q + 1 := by
  rw [quantileEdges, List.length_map, List.length_range]

/-- A value's bin index stays below the number of interior edges. -/
theorem binIndex_le {edges : List ℚ} {n : Nat} (h : edges.length = n + 2) (v : ℚ) :
    binIndex edges v ≤ n := by
  have h1 : ((edges.drop 1).dropLast).length = n := by
    simp [List.length_dropLast, List.length_drop, h]
  calc binIndex edges v ≤ ((edges.drop 1).dropLast).length := countP_le_len _ _
    _ = n := h1

/-- A successful `qcut?` returns exactly the quantile edges, and they are distinct. -/
theorem qcut?_some {values : List ℚ} {q : Nat} {e : List ℚ}
    (h : qcut? values q = some e) : e = quantileEdges values q ∧ e.Nodup := by
  simp only [qcut?] at h
  by_cases hn : (quantileEdges values q).Nodup
  · rw [if_pos hn] at h
    injection h with h
    exact ⟨h.symm, h ▸ hn⟩
  · rw [if_neg hn] at h
    cases h

/-- A failing `qcut?` means the quantile edges have a duplicate. -/
theorem qcut?_none {values : List ℚ} {q : Nat}
    (h : qcut? values q = none) : ¬ (quantileEdges values q).Nodup := by
  intro hn
  simp only [qcut?] at h
  rw [if_pos hn] at h
  cases h

/-- The descending recency label list, below bin 5, reads `5 - bin`. -/
theorem recencyScores_getD (k : Nat) (hk : k ≤ 4) :
    recencyScores.getD k 0 = 5 - (k : ℤ) := by
  interval_cases k <;> decide

/-- The ascending frequency label list, below bin 5, reads `bin + 1`. -/
theorem frequencyScores_getD (k : Nat) (hk : k ≤ 4) :
    frequencyScores.getD k 0 = (k : ℤ) + 1 := by
  interval_cases k <;> decide

/-- The monetary label list equals the frequency one. -/
theorem monetaryScores_eq : monetaryScores = frequencyScores := rfl

/-- A recency score lies in `[1, 5]`. -/
theorem scoreOf_recency_bounds {edges : List ℚ} {v : ℚ} (h : binIndex edges v ≤ 4) :
    1 ≤ scoreOf recencyScores edges v ∧ scoreOf recencyScores edges v ≤ 5 := by
  unfold scoreOf
  rw [recencyScores_getD _ h]
  omega

/-- An ascending (frequency/monetary) score lies in `[1, 5]`. -/
theorem scoreOf_asc_bounds {edges : List ℚ} {v : ℚ} (h : binIndex edges v ≤ 4) :
    1 ≤ scoreOf frequencyScores edges v ∧ scoreOf frequencyScores edges v ≤ 5 := by
  unfold scoreOf
  rw [frequencyScores_getD _ h]
  omega

/-- Recency scoring is antitone: a larger raw value gets at most the same score. -/
theorem scoreOf_recency_anti {edges : List ℚ} {v w : ℚ} (hvw : v ≤ w)
    (h4v : binIndex edges v ≤ 4) (h4w : binIndex edges w ≤ 4) :
    scoreOf recencyScores edges w ≤ scoreOf recencyScores edges v := by
  unfold scoreOf
  rw [recencyScores_getD _ h4v, recencyScores_getD _ h4w]
  have := @binIndex_mono edges v w hvw
  omega

/-- Ascending scoring is monotone: a larger raw value gets at least the same score. -/
theorem scoreOf_asc_mono {edges : List ℚ} {v w : ℚ} (hvw : v ≤ w)
    (h4v : binIndex edges v ≤ 4) (h4w : binIndex edges w ≤ 4) :
    scoreOf frequencyScores edges v ≤ scoreOf frequencyScores edges w := by
  unfold scoreOf
  rw [frequencyScores_getD _ h4v, frequencyScores_getD _ h4w]
  have := @binIndex_mono edges v w hvw
  omega

/-- Rank of a value label below bin 3: the bin index itself (ascending labels). -/
theorem vrank_getD (k : Nat) (hk : k ≤ 2) :
    vrank ([ValueSeg.low, ValueSeg.mid, ValueSeg.high].getD k ValueSeg.low) = k := by
  interval_cases k <;> decide

/-- Inversion of a successful pipeline run: all four cuts succeeded and the
output is the row-wise scoring of the input. -/
theorem pipeline_ok {data : List Row} {now : Int} {out : List ScoredRow}
    (h : pipeline data now = Except.ok out) :
    ∃ re fe me ve,
      qcut? (recencyValues data now) 5 = some re ∧
      qcut? (frequencyValues data) 5 = some fe ∧
      qcut? (monetaryValues data) 5 = some me ∧
      qcut? (rfmValues data now re fe me) 3 = some ve ∧
      out = data.map (mkScored data now re fe me ve) := by
  unfold pipeline at h
  cases h1 : qcut? (recencyValues data now) 5 with
  | none => simp only [h1] at h; exact Except.noConfusion h
  | some re =>
    simp only [h1] at h
    cases h2 : qcut? (frequencyValues data) 5 with
    | none => simp only [h2] at h; exact Except.noConfusion h
    | some fe =>
      simp only [h2] at h
      cases h3 : qcut? (monetaryValues data) 5 with
      | none => simp only [h3] at h; exact Except.noConfusion h
      | some me =>
        simp only [h3] at h
        cases h4 : qcut? (rfmValues data now re fe me) 3 with
        | none => simp only [h4] at h; exact Except.noConfusion h
        | some ve =>
          simp only [h4] at h
          injection h with h
          exact ⟨re, fe, me, ve, rfl, rfl, rfl, h4, h.symm⟩

/-- Every output row is the scoring of some input row. -/
theorem mem_pipeline {data : List Row} {now : Int} {out : List ScoredRow} {r : ScoredRow}
    (h : pipeline data now = Except.ok out) (hr : r ∈ out) :
    ∃ re fe me ve a,
      qcut? (recencyValues data now) 5 = some re ∧
      qcut? (frequencyValues data) 5 = some fe ∧
      qcut? (monetaryValues data) 5 = some me ∧
      qcut? (rfmValues data now re fe me) 3 = some ve ∧
      a ∈ data ∧ r = mkScored data now re fe me ve a := by
  obtain ⟨re, fe, me, ve, h1, h2, h3, h4, ho⟩ := pipeline_ok h
  subst ho
  obtain ⟨a, ha, hra⟩ := List.mem_map.mp hr
  exact ⟨re, fe, me, ve, a, h1, h2, h3, h4, ha, hra.symm⟩

/-- `getD` of a mapped list, inside bounds. -/
theorem map_getD {α β : Type} (f : α → β) (l : List α) (i : Nat) (hi : i < l.length)
    (d : α) (d' : β) : (l.map f).getD i d' = f (l.getD i d) := by
  induction l generalizing i with
  | nil => cases hi
  | cons x xs ih =>
    cases i with
    | zero => rfl
    | succ n =>
      have hn : n < xs.length := by simpa using hi
      simpa [List.getD_cons_succ] using ih n hn

/-- The fixed-threshold segment table, on the reachable score range: each
branch condition implies its label, the five conditions are mutually
exclusive and exhaustive, and no score keeps the initial empty label. -/
theorem seg_facts (s : ℤ) (h3 : 3 ≤ s) (h15 : s ≤ 15) :
    (9 ≤ s → rfmSegment s = Segment.champions) ∧
    (6 ≤ s ∧ s < 9 → rfmSegment s = Segment.potentialLoyalists) ∧
    (5 ≤ s ∧ s < 6 → rfmSegment s = Segment.atRiskCustomers) ∧
    (4 ≤ s ∧ s < 5 → rfmSegment s = Segment.cantLose) ∧
    (s < 4 → rfmSegment s = Segment.lost) ∧
    [decide (9 ≤ s), decide (6 ≤ s ∧ s < 9), decide (5 ≤ s ∧ s < 6),
      decide (4 ≤ s ∧ s < 5), decide (s < 4)].count true = 1 ∧
    rfmSegment s ≠ Segment.unassigned := by
  interval_cases s <;> exact (by decide)

/-! ## Claim theorems -/

/-- C1: for every output row, `RFM_Score` is the sum of the three ordinal
scores and lies in `[3, 15]`; the fixed-threshold `CustomerSegment` table is
total and non-overlapping on that range (exactly one branch condition holds
and the segment is that branch's label), so no row keeps the initial empty
label. -/
theorem c1_rfm_score_range_and_segment_total
    (data : List Row) (now : Int) (out : List ScoredRow) (r : ScoredRow)
    (h : pipeline data now = Except.ok out) (hr : r ∈ out) :
    r.rfmScore = r.recencyScore + r.frequencyScore + r.monetaryScore ∧
    3 ≤ r.rfmScore ∧ r.rfmScore ≤ 15 ∧
    (9 ≤ r.rfmScore → r.customerSegment = Segment.champions) ∧
    (6 ≤ r.rfmScore ∧ r.rfmScore < 9 → r.customerSegment = Segment.potentialLoyalists) ∧
    (5 ≤ r.rfmScore ∧ r.rfmScore < 6 → r.customerSegment = Segment.atRiskCustomers) ∧
    (4 ≤ r.rfmScore ∧ r.rfmScore < 5 → r.customerSegment = Segment.cantLose) ∧
    (r.rfmScore < 4 → r.customerSegment = Segment.lost) ∧
    [decide (9 ≤ r.rfmScore), decide (6 ≤ r.rfmScore ∧ r.rfmScore < 9),
      decide (5 ≤ r.rfmScore ∧ r.rfmScore < 6), decide (4 ≤ r.rfmScore ∧ r.rfmScore < 5),
      decide (r.rfmScore < 4)].count true = 1 ∧
    r.customerSegment ≠ Segment.unassigned := by
  obtain ⟨re, fe, me, ve, a, h1, h2, h3, h4, ha, hra⟩ := mem_pipeline h hr
  have hre : re.length = 4 + 2 := by rw [(qcut?_some h1).1, quantileEdges_length]
  have hfe : fe.length = 4 + 2 := by rw [(qcut?_some h2).1, quantileEdges_length]
  have hme : me.length = 4 + 2 := by rw [(qcut?_some h3).1, quantileEdges_length]
  have hbr := scoreOf_recency_bounds (binIndex_le hre (((recencyOf now a : Int) : ℚ)))
  have hbf := scoreOf_asc_bounds (binIndex_le hfe ((frequency data a.customerID : ℚ)))
  have hbm := scoreOf_asc_bounds (binIndex_le hme (monetary data a.customerID))
  have hsum : r.rfmScore = r.recencyScore + r.frequencyScore + r.monetaryScore := by
    rw [hra]; rfl
  have hrs : r.recencyScore = scoreOf recencyScores re ((recencyOf now a : Int) : ℚ) := by
    rw [hra]; rfl
  have hfs : r.frequencyScore = scoreOf frequencyScores fe ((frequency data a.customerID : ℚ)) := by
    rw [hra]; rfl
  have hms : r.monetaryScore = scoreOf frequencyScores me (monetary data a.customerID) := by
    rw [hra]; rfl
  have hb3 : 3 ≤ r.rfmScore := by
    rw [hsum, hrs, hfs, hms]; omega
  have hb15 : r.rfmScore ≤ 15 := by
    rw [hsum, hrs, hfs, hms]; omega
  have hcs : r.customerSegment = rfmSegment r.rfmScore := by
    rw [hra]; rfl
  obtain ⟨s1, s2, s3, s4, s5, s6, s7⟩ := seg_facts r.rfmScore hb3 hb15
  refine ⟨hsum, hb3, hb15, ?_, ?_, ?_, ?_, ?_, s6, ?_⟩
  · intro hc; rw [hcs]; exact s1 hc
  · intro hc; rw [hcs]; exact s2 hc
  · intro hc; rw [hcs]; exact s3 hc
  · intro hc; rw [hcs]; exact s4 hc
  · intro hc; rw [hcs]; exact s5 hc
  · rw [hcs]; exact s7

/-- C1 witness: a concrete run on `exData` with a concrete output row. -/
theorem c1_witness :
    pipeline exData 100 = Except.ok exOut ∧ exOut.getD 13 srow0 ∈ exOut ∧
    3 ≤ (exOut.getD 13 srow0).rfmScore ∧ (exOut.getD 13 srow0).rfmScore ≤ 15 ∧
    (exOut.getD 13 srow0).customerSegment ≠ Segment.unassigned := by
  have H := c1_rfm_score_range_and_segment_total exData 100 exOut (exOut.getD 13 srow0)
    (by with_unfolding_all rfl) (by with_unfolding_all decide)
  exact ⟨by with_unfolding_all rfl, by with_unfolding_all decide,
    H.2.1, H.2.2.1, H.2.2.2.2.2.2.2.2.2⟩

/-- C2 counterexample: on `exData` the rows at positions 13 and 14 belong to
the same customer (`CustomerID = 7`) yet differ in `RecencyScore`,
`RFM_Score` and `CustomerSegment`, because recency is computed per row. -/
theorem c2_counterexample :
    pipeline exData 100 = Except.ok exOut ∧
    exOut.getD 13 srow0 ∈ exOut ∧ exOut.getD 14 srow0 ∈ exOut ∧
    (exOut.getD 13 srow0).customerID = (exOut.getD 14 srow0).customerID ∧
    (exOut.getD 13 srow0).recencyScore ≠ (exOut.getD 14 srow0).recencyScore ∧
    (exOut.getD 13 srow0).rfmScore ≠ (exOut.getD 14 srow0).rfmScore ∧
    (exOut.getD 13 srow0).customerSegment ≠ (exOut.getD 14 srow0).customerSegment := by
  refine ⟨by with_unfolding_all rfl, ?_, ?_, ?_, ?_, ?_, ?_⟩ <;> with_unfolding_all decide

/-- C2 amended: rows sharing a `CustomerID` carry identical `Frequency`,
`MonetaryValue`, `FrequencyScore` and `MonetaryScore` (the customer-level
aggregates and their scores are broadcast), but `RecencyScore` — hence
`RFM_Score`, `ValueSegment` and `CustomerSegment` — may differ between rows
of one customer. -/
theorem c2_broadcast_invariant
    (data : List Row) (now : Int) (out : List ScoredRow) (r s : ScoredRow)
    (h : pipeline data now = Except.ok out) (hr : r ∈ out) (hs : s ∈ out)
    (hc : r.customerID = s.customerID) :
    r.frequency = s.frequency ∧ r.monetaryValue = s.monetaryValue ∧
    r.frequencyScore = s.frequencyScore ∧ r.monetaryScore = s.monetaryScore := by
  obtain ⟨re, fe, me, ve, a, h1, h2, h3, h4, ha, hra⟩ := mem_pipeline h hr
  obtain ⟨re2, fe2, me2, ve2, b, g1, g2, g3, g4, hb, hsb⟩ := mem_pipeline h hs
  rw [h1] at g1; injection g1 with g1
  rw [h2] at g2; injection g2 with g2
  rw [h3] at g3; injection g3 with g3
  subst g1 g2 g3
  subst hra hsb
  have hab : a.customerID = b.customerID := hc
  refine ⟨?_, ?_, ?_, ?_⟩
  · show frequency data a.customerID = frequency data b.customerID
    rw [hab]
  · show monetary data a.customerID = monetary data b.customerID
    rw [hab]
  · show scoreOf frequencyScores fe ((frequency data a.customerID : ℚ))
        = scoreOf frequencyScores fe ((frequency data b.customerID : ℚ))
    rw [hab]
  · show scoreOf monetaryScores me (monetary data a.customerID)
        = scoreOf monetaryScores me (monetary data b.customerID)
    rw [hab]

/-- C2 witness: two rows of customer 7 in the concrete run share the
broadcast aggregates and their scores. -/
theorem c2_witness :
    (exOut.getD 12 srow0).frequency = (exOut.getD 13 srow0).frequency ∧
    (exOut.getD 12 srow0).monetaryValue = (exOut.getD 13 srow0).monetaryValue ∧
    (exOut.getD 12 srow0).frequencyScore = (exOut.getD 13 srow0).frequencyScore ∧
    (exOut.getD 12 srow0).monetaryScore = (exOut.getD 13 srow0).monetaryScore :=
  c2_broadcast_invariant exData 100 exOut _ _ (by with_unfolding_all rfl)
    (by with_unfolding_all decide) (by with_unfolding_all decide)
    (by with_unfolding_all decide)

/-- C3: `Recency` is computed per row from that row's own `PurchaseDate`
(`now - date`), while `Frequency` and `MonetaryValue` are the per-customer
aggregates broadcast onto every row; two rows of one customer with distinct
purchase dates keep distinct `Recency` values. -/
theorem c3_recency_per_row
    (data : List Row) (now : Int) (out : List ScoredRow) (i j : Nat)
    (h : pipeline data now = Except.ok out)
    (hi : i < data.length) (hj : j < data.length) :
    (out.getD i srow0).recency = now - (data.getD i row0).purchaseDate ∧
    (out.getD i srow0).frequency = frequency data ((data.getD i row0).customerID) ∧
    (out.getD i srow0).monetaryValue = monetary data ((data.getD i row0).customerID) ∧
    ((data.getD i row0).customerID = (data.getD j row0).customerID →
      (data.getD i row0).purchaseDate ≠ (data.getD j row0).purchaseDate →
      (out.getD i srow0).recency ≠ (out.getD j srow0).recency) := by
  obtain ⟨re, fe, me, ve, h1, h2, h3, h4, ho⟩ := pipeline_ok h
  subst ho
  rw [map_getD _ data i hi row0 srow0, map_getD _ data j hj row0 srow0]
  refine ⟨rfl, rfl, rfl, ?_⟩
  intro hcid hpd hrec
  apply hpd
  have hrec2 : now - (data.getD i row0).purchaseDate
      = now - (data.getD j row0).purchaseDate := hrec
  omega

/-- C3 witness: rows 1 and 2 of `exData` belong to customer 2 with distinct
dates; their output rows keep distinct recencies while the frequency column
carries the customer aggregate. -/
theorem c3_witness :
    (exOut.getD 1 srow0).frequency = frequency exData ((exData.getD 1 row0).customerID) ∧
    (exOut.getD 1 srow0).recency ≠ (exOut.getD 2 srow0).recency := by
  have H := c3_recency_per_row exData 100 exOut 1 2 (by with_unfolding_all rfl)
    (by with_unfolding_all decide) (by with_unfolding_all decide)
  exact ⟨H.2.1, H.2.2.2 (by with_unfolding_all decide) (by with_unfolding_all decide)⟩

/-- C4: quantile scoring is monotone across the rows of one run: a strictly
larger raw `Recency` never yields a strictly larger `RecencyScore`, and a
strictly larger raw `Frequency` or `MonetaryValue` never yields a strictly
smaller `FrequencyScore` or `MonetaryScore`. -/
theorem c4_quantile_scoring_monotone
    (data : List Row) (now : Int) (out : List ScoredRow) (r s : ScoredRow)
    (h : pipeline data now = Except.ok out) (hr : r ∈ out) (hs : s ∈ out) :
    (s.recency < r.recency → r.recencyScore ≤ s.recencyScore) ∧
    (s.frequency < r.frequency → s.frequencyScore ≤ r.frequencyScore) ∧
    (s.monetaryValue < r.monetaryValue → s.monetaryScore ≤ r.monetaryScore) := by
  obtain ⟨re, fe, me, ve, a, h1, h2, h3, h4, ha, hra⟩ := mem_pipeline h hr
  obtain ⟨re2, fe2, me2, ve2, b, g1, g2, g3, g4, hb, hsb⟩ := mem_pipeline h hs
  rw [h1] at g1; injection g1 with g1
  rw [h2] at g2; injection g2 with g2
  rw [h3] at g3; injection g3 with g3
  subst g1 g2 g3
  have hre : re.length = 4 + 2 := by rw [(qcut?_some h1).1, quantileEdges_length]
  have hfe : fe.length = 4 + 2 := by rw [(qcut?_some h2).1, quantileEdges_length]
  have hme : me.length = 4 + 2 := by rw [(qcut?_some h3).1, quantileEdges_length]
  subst hra hsb
  refine ⟨?_, ?_, ?_⟩
  · intro hlt
    have hlt1 : recencyOf now b < recencyOf now a := hlt
    have hle : ((recencyOf now b : Int) : ℚ) ≤ ((recencyOf now a : Int) : ℚ) := by
      exact_mod_cast le_of_lt hlt1
    show scoreOf recencyScores re ((recencyOf now a : Int) : ℚ)
        ≤ scoreOf recencyScores re ((recencyOf now b : Int) : ℚ)
    exact scoreOf_recency_anti hle (binIndex_le hre _) (binIndex_le hre _)
  · intro hlt
    have hlt1 : frequency data b.customerID < frequency data a.customerID := hlt
    have hle : ((frequency data b.customerID : Nat) : ℚ) ≤ ((frequency data a.customerID : Nat) : ℚ) := by
      exact_mod_cast Nat.le_of_lt hlt1
    show scoreOf frequencyScores fe ((frequency data b.customerID : ℚ))
        ≤ scoreOf frequencyScores fe ((frequency data a.customerID : ℚ))
    exact scoreOf_asc_mono hle (binIndex_le hfe _) (binIndex_le hfe _)
  · intro hlt
    have hlt1 : monetary data b.customerID < monetary data a.customerID := hlt
    show scoreOf monetaryScores me (monetary data b.customerID)
        ≤ scoreOf monetaryScores me (monetary data a.customerID)
    rw [monetaryScores_eq]
    exact scoreOf_asc_mono (le_of_lt hlt1) (binIndex_le hme _) (binIndex_le hme _)

/-- C4 witness: in the concrete run, row 22 has strictly larger raw values
than row 0 in all three measures, and the scores respect the directions. -/
theorem c4_witness :
    (exOut.getD 0 srow0).recency < (exOut.getD 22 srow0).recency ∧
    (exOut.getD 22 srow0).recencyScore ≤ (exOut.getD 0 srow0).recencyScore ∧
    (exOut.getD 0 srow0).frequencyScore ≤ (exOut.getD 22 srow0).frequencyScore ∧
    (exOut.getD 0 srow0).monetaryScore ≤ (exOut.getD 22 srow0).monetaryScore := by
  have H := c4_quantile_scoring_monotone exData 100 exOut
    (exOut.getD 22 srow0) (exOut.getD 0 srow0)
    (by with_unfolding_all rfl) (by with_unfolding_all decide)
    (by with_unfolding_all decide)
  exact ⟨by with_unfolding_all decide, H.1 (by with_unfolding_all decide),
    H.2.1 (by with_unfolding_all decide), H.2.2 (by with_unfolding_all decide)⟩

/-- C5: when a measure has fewer than 5 distinct quantile edges, the run
fails at that measure's cut — the error names the first failing cut, whose
edges indeed contain a duplicate — and no scored table is produced. -/
theorem c5_insufficient_distinct_fails
    (data : List Row) (now : Int)
    (h : (quantileEdges (recencyValues data now) 5).dedup.length < 5 ∨
         (quantileEdges (frequencyValues data) 5).dedup.length < 5 ∨
         (quantileEdges (monetaryValues data) 5).dedup.length < 5) :
    (pipeline data now = Except.error QcutError.recencyCut ∧
      ¬ (quantileEdges (recencyValues data now) 5).Nodup) ∨
    (pipeline data now = Except.error QcutError.frequencyCut ∧
      ¬ (quantileEdges (frequencyValues data) 5).Nodup) ∨
    (pipeline data now = Except.error QcutError.monetaryCut ∧
      ¬ (quantileEdges (monetaryValues data) 5).Nodup) := by
  cases h1 : qcut? (recencyValues data now) 5 with
  | none =>
    exact Or.inl ⟨by unfold pipeline; rw [h1], qcut?_none h1⟩
  | some re =>
    have hnr : (quantileEdges (recencyValues data now) 5).Nodup := by
      have hq := qcut?_some h1
      exact hq.1 ▸ hq.2
    have hlr : ¬ (quantileEdges (recencyValues data now) 5).dedup.length < 5 := by
      rw [List.dedup_eq_self.mpr hnr, quantileEdges_length]
      omega
    cases h2 : qcut? (frequencyValues data) 5 with
    | none =>
      exact Or.inr (Or.inl ⟨by unfold pipeline; rw [h1, h2], qcut?_none h2⟩)
    | some fe =>
      have hnf : (quantileEdges (frequencyValues data) 5).Nodup := by
        have hq := qcut?_some h2
        exact hq.1 ▸ hq.2
      have hlf : ¬ (quantileEdges (frequencyValues data) 5).dedup.length < 5 := by
        rw [List.dedup_eq_self.mpr hnf, quantileEdges_length]
        omega
      cases h3 : qcut? (monetaryValues data) 5 with
      | none =>
        exact Or.inr (Or.inr ⟨by unfold pipeline; rw [h1, h2, h3], qcut?_none h3⟩)
      | some me =>
        have hnm : (quantileEdges (monetaryValues data) 5).Nodup := by
          have hq := qcut?_some h3
          exact hq.1 ▸ hq.2
        have hlm : ¬ (quantileEdges (monetaryValues data) 5).dedup.length < 5 := by
          rw [List.dedup_eq_self.mpr hnm, quantileEdges_length]
          omega
        rcases h with h | h | h
        · exact absurd h hlr
        · exact absurd h hlf
        · exact absurd h hlm

/-- C5 witness: on `dataC5` every customer's total is 60, so the monetary
edges collapse; the run fails at the monetary cut. -/
theorem c5_witness :
    (quantileEdges (monetaryValues dataC5) 5).dedup.length < 5 ∧
    ((pipeline dataC5 100 = Except.error QcutError.recencyCut ∧
        ¬ (quantileEdges (recencyValues dataC5 100) 5).Nodup) ∨
      (pipeline dataC5 100 = Except.error QcutError.frequencyCut ∧
        ¬ (quantileEdges (frequencyValues dataC5) 5).Nodup) ∨
      (pipeline dataC5 100 = Except.error QcutError.monetaryCut ∧
        ¬ (quantileEdges (monetaryValues dataC5) 5).Nodup)) :=
  ⟨by with_unfolding_all decide,
   c5_insufficient_distinct_fails dataC5 100
     (Or.inr (Or.inr (by with_unfolding_all decide)))⟩

/-- C6 counterexample: a non-empty scored table with zero Champions rows on
which the reporter still computes the correlation matrix — every entry is
`NaN` — instead of failing. -/
theorem c6_counterexample :
    t6 ≠ [] ∧ championsRows t6 = [] ∧ championsCorrAllNaN t6 = true := by
  refine ⟨?_, ?_, ?_⟩ <;> with_unfolding_all decide

/-- C6 amended: the Champions correlation stage is a total computation: when
zero rows match the Champions filter it silently yields a matrix all of
whose entries are `NaN`; no error of any kind is raised. -/
theorem c6_empty_champions_nan_matrix (out : List ScoredRow)
    (h : championsRows out = []) : championsCorrAllNaN out = true := by
  unfold championsCorrAllNaN
  rw [h]
  with_unfolding_all decide

/-- C6 witness: the amended statement at the concrete table `t6`. -/
theorem c6_witness : championsCorrAllNaN t6 = true :=
  c6_empty_champions_nan_matrix t6 (by with_unfolding_all decide)

/-- C7 counterexample: two rows of customer 1 share `OrderID = 5`; the
code's `Frequency` is 2 while the count of distinct orders is 1, so the
duplicate does inflate `Frequency`. -/
theorem c7_counterexample :
    frequency data7 1 = 2 ∧ specDistinctOrderCount data7 1 = 1 := by
  constructor <;> with_unfolding_all decide

/-- C7 amended: `Frequency` counts the customer's (non-null) `OrderID`
entries, i.e. the customer's transaction rows; it always dominates the
distinct-order count, and agrees with it exactly when the customer's
`OrderID` values are pairwise distinct. -/
theorem c7_frequency_counts_rows (data : List Row) (c : Nat) :
    specDistinctOrderCount data c ≤ frequency data c ∧
    (frequency data c = specDistinctOrderCount data c ↔
      ((data.filter (fun r => decide (r.customerID = c))).map Row.orderID).Nodup) := by
  have hfreq : frequency data c
      = ((data.filter (fun r => decide (r.customerID = c))).map Row.orderID).length := by
    rw [List.length_map]; rfl
  have hdist : specDistinctOrderCount data c
      = ((data.filter (fun r => decide (r.customerID = c))).map Row.orderID).dedup.length := rfl
  constructor
  · rw [hfreq, hdist]
    exact ((data.filter (fun r => decide (r.customerID = c))).map Row.orderID).dedup_sublist.length_le
  · rw [hfreq, hdist]
    constructor
    · intro hlen
      have heq := ((data.filter (fun r => decide (r.customerID = c))).map Row.orderID).dedup_sublist.eq_of_length hlen.symm
      exact List.dedup_eq_self.mp heq
    · intro hnd
      rw [List.dedup_eq_self.mpr hnd]

/-- C8: `ValueSegment` is a function of `RFM_Score` alone — equal scores get
equal labels — obtained by a separate 3-bin quantile cut of `RFM_Score`
whose labels ascend with the score (`Low-Value ≤ Mid-Value ≤ High-Value` in
rank); in particular it is not derived from `CustomerSegment`. -/
theorem c8_value_segment_function_of_rfm
    (data : List Row) (now : Int) (out : List ScoredRow) (r s : ScoredRow)
    (h : pipeline data now = Except.ok out) (hr : r ∈ out) (hs : s ∈ out) :
    (r.rfmScore = s.rfmScore → r.valueSegment = s.valueSegment) ∧
    (r.rfmScore ≤ s.rfmScore → vrank r.valueSegment ≤ vrank s.valueSegment) := by
  obtain ⟨re, fe, me, ve, a, h1, h2, h3, h4, ha, hra⟩ := mem_pipeline h hr
  obtain ⟨re2, fe2, me2, ve2, b, g1, g2, g3, g4, hb, hsb⟩ := mem_pipeline h hs
  rw [h1] at g1; injection g1 with g1
  rw [h2] at g2; injection g2 with g2
  rw [h3] at g3; injection g3 with g3
  subst g1 g2 g3
  rw [h4] at g4; injection g4 with g4
  subst g4
  have hve : ve.length = 2 + 2 := by rw [(qcut?_some h4).1, quantileEdges_length]
  subst hra hsb
  constructor
  · intro hx
    have hx2 : rfmScoreOf data now re fe me a = rfmScoreOf data now re fe me b := hx
    show valueSegOf ve (rfmScoreOf data now re fe me a)
        = valueSegOf ve (rfmScoreOf data now re fe me b)
    rw [hx2]
  · intro hx
    have hx2 : rfmScoreOf data now re fe me a ≤ rfmScoreOf data now re fe me b := hx
    have hcast : ((rfmScoreOf data now re fe me a : ℤ) : ℚ)
        ≤ ((rfmScoreOf data now re fe me b : ℤ) : ℚ) := by
      exact_mod_cast hx2
    show vrank (valueSegOf ve (rfmScoreOf data now re fe me a))
        ≤ vrank (valueSegOf ve (rfmScoreOf data now re fe me b))
    unfold valueSegOf
    rw [vrank_getD _ (binIndex_le hve _), vrank_getD _ (binIndex_le hve _)]
    exact binIndex_mono hcast

/-- C8 witness: in the concrete run, rows 9 and 19 share
`CustomerSegment = Champions` yet carry different `ValueSegment` labels
(`Mid-Value` vs `High-Value`) — the two segmentations disagree and both are
reported — and the label rank respects the score order. -/
theorem c8_witness :
    (exOut.getD 9 srow0).customerSegment = Segment.champions ∧
    (exOut.getD 19 srow0).customerSegment = Segment.champions ∧
    (exOut.getD 9 srow0).valueSegment = ValueSeg.mid ∧
    (exOut.getD 19 srow0).valueSegment = ValueSeg.high ∧
    vrank (exOut.getD 9 srow0).valueSegment ≤ vrank (exOut.getD 19 srow0).valueSegment := by
  refine ⟨by with_unfolding_all decide, by with_unfolding_all decide,
    by with_unfolding_all decide, by with_unfolding_all decide, ?_⟩
  exact (c8_value_segment_function_of_rfm exData 100 exOut _ _
    (by with_unfolding_all rfl) (by with_unfolding_all decide)
    (by with_unfolding_all decide)).2 (by with_unfolding_all decide)

/-- C9: the pipeline is a pure function of the input table and the reference
instant: two runs on identical input at the same instant produce identical
output; there is no other state. -/
theorem c9_pipeline_deterministic
    (d₁ d₂ : List Row) (n₁ n₂ : Int) (hd : d₁ = d₂) (hn : n₁ = n₂) :
    pipeline d₁ n₁ = pipeline d₂ n₂ := by
  rw [hd, hn]

/-- C9 witness: the determinism statement at a concrete run. -/
theorem c9_witness :
    exData = exData ∧ (100 : Int) = 100 ∧ pipeline exData 100 = pipeline exData 100 :=
  ⟨rfl, rfl, c9_pipeline_deterministic exData exData 100 100 rfl rfl⟩

/-- C10: a concrete input on which all three `q = 5` measure cuts succeed
but the `q = 3` cut on `RFM_Score` fails with duplicate bin edges, aborting
the run at the `Value Segment` stage — an additional failure point beyond
the three raw-measure cuts. -/
theorem c10_value_segment_cut_extra_failure :
    (qcut? (recencyValues dataC10 100) 5).isSome = true ∧
    (qcut? (frequencyValues dataC10) 5).isSome = true ∧
    (qcut? (monetaryValues dataC10) 5).isSome = true ∧
    pipeline dataC10 100 = Except.error QcutError.valueSegmentCut := by
  refine ⟨?_, ?_, ?_, ?_⟩ <;> with_unfolding_all rfl
